import Mathlib

/-!
Shallow embedding of the Matrix room event authorization engine from
`crates/ruma-state-res/src/event_auth.rs`, together with theorems checking
the natural-language specification against it.

Events are modelled structurally; JSON content is modelled by a small
inductive `Json`. Content parsers for the event-content types that live in
sibling crates (`ruma-events`, `ruma-identifiers`) are modelled from the
specification's data model, as marked on each definition. Machine integers
(`js_int::Int`) are modelled by `Int`: only comparisons occur, never
arithmetic, so bounds are irrelevant.
-/

namespace EventAuth

/-- A JSON value, as accessed by the engine via `serde_json::Value`. -/
inductive Json where
  | null : Json
  | bool : Bool → Json
  | num : Int → Json
  | str : String → Json
  | arr : List Json → Json
  | obj : List (String × Json) → Json

/-- Association-list lookup by decidable equality (`BTreeMap::get`,
`Vec::contains`-style structural equality). -/
def alookup {α : Type} {β : Type} [DecidableEq α] :
    List (α × β) → α → Option β
  | [], _ => none
  | (k, v) :: rest, a => if a = k then some v else alookup rest a

/-- `Value::get(key)` on a JSON object; `None` on non-objects. -/
def Json.get : Json → String → Option Json
  | .obj l, k => alookup l k
  | _, _ => none

/-- `Value::as_str`-style view. -/
def Json.asStr : Json → Option String
  | .str s => some s
  | _ => none

/-- The event kinds the engine dispatches on (`ruma_events::EventType`),
with the open "other string" escape. -/
inductive EventType where
  | roomCreate
  | roomMember
  | roomPowerLevels
  | roomJoinRules
  | roomAliases
  | roomRedaction
  | roomThirdPartyInvite
  | other : String → EventType
deriving DecidableEq, BEq

/-- Modelled from the spec: membership state is a tagged variant
`Join | Leave | Invite | Ban | Knock`, deserialized from the string value
of `content.membership`. -/
inductive MembershipState where
  | join
  | leave
  | invite
  | ban
  | knock
deriving DecidableEq, BEq

/-- Modelled from the spec: parse a membership state from the string value
of a JSON field; any other shape fails. -/
def parseMembership : Json → Option MembershipState
  | .str "join" => some .join
  | .str "leave" => some .leave
  | .str "invite" => some .invite
  | .str "ban" => some .ban
  | .str "knock" => some .knock
  | _ => none

/-- Modelled from the spec: join rule is a tagged variant
`Invite | Public | Knock | Restricted | Private` plus unknown fallthrough. -/
inductive JoinRule where
  | invite
  | public
  | knock
  | restricted
  | private_rule
  | custom : String → JoinRule
deriving DecidableEq, BEq

/-- Modelled from the spec: parse a join rule from a JSON string, with
unknown strings falling through to the custom variant. -/
def parseJoinRule : Json → Option JoinRule
  | .str "invite" => some .invite
  | .str "public" => some .public
  | .str "knock" => some .knock
  | .str "restricted" => some .restricted
  | .str "private" => some .private_rule
  | .str s => some (.custom s)
  | _ => none

/-- The characters after the first colon, if any. -/
def afterColon : List Char → Option (List Char)
  | [] => none
  | c :: rest => if c = ':' then some rest else afterColon rest

/-- Modelled from the spec: ids are opaque strings with a parseable
`server_name` suffix after the first colon; ids without a colon (room v3+
event ids) have no server name. -/
def serverNameOf (s : String) : Option String :=
  (afterColon s.toList).map String.mk

/-- Rust `str::starts_with(c)` on the first character. -/
def firstCharIs (s : String) (c : Char) : Bool :=
  match s.toList with
  | d :: _ => d = c
  | [] => false

/-- Modelled from the spec: a user id is a string with the `@` sigil and a
server-name suffix (`UserId::try_from`). -/
def parseUserId (s : String) : Option String :=
  if firstCharIs s '@' && (serverNameOf s).isSome then some s else none

/-- Modelled from the spec: the power-levels content record, scalar
defaults 50 for ban/kick/redact/invite/state_default and 0 for
events_default/users_default. -/
structure PowerLevels where
  usersDefault : Int := 0
  eventsDefault : Int := 0
  stateDefault : Int := 50
  ban : Int := 50
  kick : Int := 50
  redact : Int := 50
  invite : Int := 50
  users : List (String × Int) := []
  events : List (EventType × Int) := []
  notificationsRoom : Int := 50
deriving DecidableEq

instance : Inhabited PowerLevels := ⟨{}⟩

/-- Decimal digits to a natural number; fails on the empty list or any
non-digit character. -/
def digitsToNat : List Char → Option Nat
  | [] => none
  | l => go l 0
where
  go : List Char → Nat → Option Nat
    | [], acc => some acc
    | c :: rest, acc =>
      if '0' ≤ c ∧ c ≤ '9' then go rest (acc * 10 + (c.toNat - 48))
      else none

/-- Integer parsing as `i64::from_str`: optional sign, then digits. -/
def strToInt (s : String) : Option Int :=
  match s.toList with
  | '-' :: rest => (digitsToNat rest).map (fun n => -(n : Int))
  | '+' :: rest => (digitsToNat rest).map (fun n => (n : Int))
  | l => (digitsToNat l).map (fun n => (n : Int))

/-- An integer-valued JSON field: an integer, or a string holding one
(the source's "integers (or a string that is an integer)"). -/
def jsonInt : Json → Option Int
  | .num n => some n
  | .str s => strToInt s
  | _ => none

/-- Read an optional integer field with a default; a present but
malformed field fails the whole parse. -/
def getIntFieldD (j : Json) (name : String) (d : Int) : Option Int :=
  match j.get name with
  | none => some d
  | some v => jsonInt v

/-- Modelled from the spec: the `event_type` string forms, with the open
escape for unknown strings. -/
def eventTypeOfString (s : String) : EventType :=
  match s with
  | "m.room.create" => .roomCreate
  | "m.room.member" => .roomMember
  | "m.room.power_levels" => .roomPowerLevels
  | "m.room.join_rules" => .roomJoinRules
  | "m.room.aliases" => .roomAliases
  | "m.room.redaction" => .roomRedaction
  | "m.room.third_party_invite" => .roomThirdPartyInvite
  | s => .other s

/-- Parse the `users` map: keys must be valid user ids, values integers. -/
def parseUsersMap : List (String × Json) → Option (List (String × Int))
  | [] => some []
  | (k, v) :: rest => do
      let _ ← parseUserId k
      let n ← jsonInt v
      let tail ← parseUsersMap rest
      pure ((k, n) :: tail)

/-- Parse the `events` map: keys are event-type strings, values integers. -/
def parseEventsMap : List (String × Json) → Option (List (EventType × Int))
  | [] => some []
  | (k, v) :: rest => do
      let n ← jsonInt v
      let tail ← parseEventsMap rest
      pure ((eventTypeOfString k, n) :: tail)

/-- Modelled from the spec: deserialize a power-levels content record
(`PowerLevelsEventContent`); a present but malformed field rejects. -/
def parsePowerLevels (j : Json) : Option PowerLevels :=
  match j with
  | .obj _ => do
      let usersDefault ← getIntFieldD j "users_default" 0
      let eventsDefault ← getIntFieldD j "events_default" 0
      let stateDefault ← getIntFieldD j "state_default" 50
      let ban ← getIntFieldD j "ban" 50
      let kick ← getIntFieldD j "kick" 50
      let redact ← getIntFieldD j "redact" 50
      let invite ← getIntFieldD j "invite" 50
      let users ←
        match j.get "users" with
        | none => some []
        | some (.obj l) => parseUsersMap l
        | some _ => none
      let events ←
        match j.get "events" with
        | none => some []
        | some (.obj l) => parseEventsMap l
        | some _ => none
      let notificationsRoom ←
        match j.get "notifications" with
        | none => some 50
        | some v =>
            match v with
            | .obj _ => getIntFieldD v "room" 50
            | _ => none
      pure { usersDefault, eventsDefault, stateDefault, ban, kick, redact,
             invite, users, events, notificationsRoom }
  | _ => none

/-- Modelled from the spec: the create-event content; `creator` is a
required user-id string (`CreateEventContent`). -/
structure CreateContent where
  creator : String
deriving DecidableEq

/-- Modelled from the spec: deserialize `CreateEventContent`. -/
def parseCreateContent (j : Json) : Option CreateContent := do
  let c ← j.get "creator"
  let s ← c.asStr
  let u ← parseUserId s
  pure ⟨u⟩

/-- Modelled from the spec: known room version id strings. -/
def knownRoomVersions : List String := ["1", "2", "3", "4", "5", "6"]

/-- Modelled from the spec: parse a room version id; only known versions
are recognized. -/
def parseRoomVersionId (j : Json) : Option String :=
  match j with
  | .str s => if knownRoomVersions.contains s then some s else none
  | _ => none

/-- Modelled from the spec: the third-party invite attached to
invite-membership content: `{ display_name, signed: { mxid, token,
signatures } }`. -/
structure Tpi where
  signedMxid : String
  signedToken : String
deriving DecidableEq

/-- Modelled from the spec: deserialize a `ThirdPartyInvite` from member
content; all record fields are required. -/
def parseThirdPartyInvite (j : Json) : Option Tpi := do
  let dn ← j.get "display_name"
  let _ ← dn.asStr
  let signed ← j.get "signed"
  let mxidJ ← signed.get "mxid"
  let mxidS ← mxidJ.asStr
  let mxid ← parseUserId mxidS
  let tokenJ ← signed.get "token"
  let token ← tokenJ.asStr
  let _ ← signed.get "signatures"
  pure ⟨mxid, token⟩

/-- Modelled from the spec: the `m.room.third_party_invite` state event
content: a top-level `public_key` and an optional `public_keys` list. -/
structure TpiEventContent where
  publicKey : String
  publicKeys : List String
deriving DecidableEq

/-- Parse the optional `public_keys` array of `{public_key}` records. -/
def parsePublicKeys : List Json → Option (List String)
  | [] => some []
  | j :: rest => do
      let kJ ← j.get "public_key"
      let k ← kJ.asStr
      let tail ← parsePublicKeys rest
      pure (k :: tail)

/-- Modelled from the spec: deserialize `ThirdPartyInviteEventContent`. -/
def parseTpiEventContent (j : Json) : Option TpiEventContent := do
  let pkJ ← j.get "public_key"
  let pk ← pkJ.asStr
  let pks ←
    match j.get "public_keys" with
    | none => some []
    | some (.arr l) => parsePublicKeys l
    | some _ => none
  pure ⟨pk, pks⟩

/-- The abstract event interface (`trait Event`): id, room, sender, type,
state key, content, previous events, redaction target. -/
structure Event where
  eventId : String
  roomId : String
  sender : String
  eventType : EventType
  stateKey : Option String
  content : Json
  prevEvents : List String
  redacts : Option String

/-- The room version profile flags used by the engine
(`crate::room_version::RoomVersion`). -/
structure RoomVersion where
  specialCaseAliasesAuth : Bool
  extraRedactionChecks : Bool
  limitNotificationsPowerLevels : Bool

/-- Outcome of an engine call: a value, a fatal `Err`, or a Rust panic
(`unwrap` / `expect` failure). -/
inductive Res (α : Type) where
  | ok : α → Res α
  | err : String → Res α
  | panic : Res α
deriving DecidableEq

instance : Monad Res where
  pure := .ok
  bind := fun r f =>
    match r with
    | .ok a => f a
    | .err e => .err e
    | .panic => .panic

/-- Rust `Option<&Int>` strict order: `None` is below any `Some`. -/
def optLt : Option Int → Option Int → Bool
  | none, none => false
  | none, some _ => true
  | some _, none => false
  | some a, some b => a < b

/-- Structural list membership (`Vec::contains`). -/
def elemBy {α : Type} [DecidableEq α] (a : α) : List α → Bool
  | [] => false
  | b :: rest => if a = b then true else elemBy a rest

/-- `auth_types_for_event`: push a key unless already present, as the
source's `if !auth_types.contains(&key) { auth_types.push(key) }`. -/
def addIfAbsent (l : List (EventType × String)) (k : EventType × String) :
    List (EventType × String) :=
  if elemBy k l then l else l ++ [k]

/-- `auth_types_for_event` from `event_auth.rs`: the `(type, state_key)`
pairs whose state is needed to authorize an event. -/
def auth_types_for_event (kind : EventType) (sender : String)
    (stateKey : Option String) (content : Json) :
    List (EventType × String) :=
  if kind = EventType.roomCreate then []
  else
    let authTypes : List (EventType × String) :=
      [(EventType.roomPowerLevels, ""), (EventType.roomMember, sender),
       (EventType.roomCreate, "")]
    if kind = EventType.roomMember then
      match stateKey with
      | none => authTypes
      | some sk =>
        match (content.get "membership").map parseMembership with
        | some (some membership) =>
          let authTypes :=
            if membership = MembershipState.join ∨
                membership = MembershipState.invite then
              addIfAbsent authTypes (EventType.roomJoinRules, "")
            else authTypes
          let authTypes := addIfAbsent authTypes (EventType.roomMember, sk)
          if membership = MembershipState.invite then
            match (content.get "third_party_invite").map
                parseThirdPartyInvite with
            | some (some tId) =>
              addIfAbsent authTypes
                (EventType.roomThirdPartyInvite, tId.signedToken)
            | _ => authTypes
          else authTypes
        | _ => authTypes
    else authTypes

/-- Reading `content.membership` inside `valid_membership_change`: a
missing field panics (`expect`), an unparsable one is a fatal error. -/
def getMembershipField (content : Json) : Res MembershipState :=
  match content.get "membership" with
  | none => .panic
  | some j =>
    match parseMembership j with
    | none => .err "deserialization"
    | some m => .ok m

/-- Membership of an optional member event: absent events read as
`Leave`; a present event with no `membership` field panics (`expect`),
an unparsable field is a fatal error. -/
def membershipOfEvent (ev : Option Event) : Res MembershipState :=
  match ev with
  | none => .ok .leave
  | some pdu =>
    match pdu.content.get "membership" with
    | none => .panic
    | some j =>
      match parseMembership j with
      | none => .err "deserialization"
      | some m => .ok m

/-- Power-levels content of an optional event: default record when
absent, fatal error when present but unparsable
(`serde_json::from_value(ev.content())?`). -/
def plContentOf (ev : Option Event) : Res PowerLevels :=
  match ev with
  | none => .ok default
  | some e =>
    match parsePowerLevels e.content with
    | none => .err "deserialization"
    | some c => .ok c

/-- Join rule of an optional join-rules event: `Invite` when absent,
fatal error when present but unparsable; the content's `join_rule`
field is required. -/
def joinRuleOf (ev : Option Event) : Res JoinRule :=
  match ev with
  | none => .ok .invite
  | some e =>
    match e.content.get "join_rule" with
    | none => .err "deserialization"
    | some j =>
      match parseJoinRule j with
      | none => .err "deserialization"
      | some r => .ok r

/-- The bootstrap early allow: `prev_event` is an `m.room.create` event
with empty `prev_events`. -/
def isCreateBootstrap : Option Event → Bool
  | some prev =>
      prev.eventType = EventType.roomCreate && prev.prevEvents.isEmpty
  | none => false

/-- `verify_third_party_invite` from `event_auth.rs`. -/
def verify_third_party_invite (targetUser : Option String) (sender : String)
    (tpId : Tpi) (currentThirdPartyInvite : Option Event) : Bool :=
  if targetUser ≠ some tpId.signedMxid then false
  else
    match currentThirdPartyInvite with
    | none => false
    | some currentTpid =>
      if currentTpid.stateKey ≠ some tpId.signedToken then false
      else if sender ≠ currentTpid.sender then false
      else
        match parseTpiEventContent currentTpid.content with
        | none => false
        | some tpidEv =>
          tpidEv.publicKeys.any (fun key => key = tpId.signedToken) ||
            tpidEv.publicKey = tpId.signedToken

/-- `valid_membership_change` from `event_auth.rs`: the membership
transition validator. -/
def valid_membership_change (targetUser : String)
    (targetUserMembershipEvent : Option Event) (sender : String)
    (senderMembershipEvent : Option Event) (content : Json)
    (prevEvent : Option Event) (currentThirdPartyInvite : Option Event)
    (powerLevelsEvent : Option Event) (joinRulesEvent : Option Event) :
    Res Bool := do
  let targetMembership ← getMembershipField content
  let thirdPartyInvite := (content.get "third_party_invite").map
    parseThirdPartyInvite
  let senderMembership ← membershipOfEvent senderMembershipEvent
  let senderIsJoined := senderMembership = MembershipState.join
  let targetUserCurrentMembership ← membershipOfEvent
    targetUserMembershipEvent
  let powerLevels ← plContentOf powerLevelsEvent
  let senderPower := (alookup powerLevels.users sender).orElse
    (fun _ => if senderIsJoined then some powerLevels.usersDefault else none)
  let targetPower := (alookup powerLevels.users targetUser).orElse
    (fun _ =>
      if targetMembership = MembershipState.join then
        some powerLevels.usersDefault
      else none)
  let joinRules ← joinRuleOf joinRulesEvent
  if isCreateBootstrap prevEvent then
    return true
  match targetMembership with
  | .join =>
    if sender ≠ targetUser then return false
    else if targetUserCurrentMembership = MembershipState.ban then
      return false
    else
      return (joinRules = JoinRule.invite &&
          (targetUserCurrentMembership = MembershipState.join ||
            targetUserCurrentMembership = MembershipState.invite)) ||
        joinRules = JoinRule.public
  | .invite =>
    match thirdPartyInvite with
    | some (some tpId) =>
      if targetUserCurrentMembership = MembershipState.ban then
        return false
      else
        return verify_third_party_invite (some targetUser) sender tpId
          currentThirdPartyInvite
    | _ =>
      if !senderIsJoined ||
          targetUserCurrentMembership = MembershipState.join ||
          targetUserCurrentMembership = MembershipState.ban then
        return false
      else
        return ((senderPower.filter
          (fun p => powerLevels.invite ≤ p)).isSome : Bool)
  | .leave =>
    if sender = targetUser then
      return (targetUserCurrentMembership = MembershipState.join ||
        targetUserCurrentMembership = MembershipState.invite)
    else if !senderIsJoined ||
        (targetUserCurrentMembership = MembershipState.ban &&
          (senderPower.filter (fun p => p < powerLevels.ban)).isSome) then
      return false
    else
      return ((senderPower.filter
          (fun p => powerLevels.kick ≤ p)).isSome : Bool) &&
        optLt targetPower senderPower
  | .ban =>
    if !senderIsJoined then return false
    else
      return ((senderPower.filter
          (fun p => powerLevels.ban ≤ p)).isSome : Bool) &&
        optLt targetPower senderPower
  | _ => return false

/-- `get_send_level` from `event_auth.rs`. -/
def get_send_level (eType : EventType) (stateKey : Option String)
    (powerLvl : Option Event) : Int :=
  match powerLvl with
  | some ple =>
    match parsePowerLevels ple.content with
    | some content =>
      match alookup content.events eType with
      | some l => l
      | none => if stateKey.isSome then content.stateDefault
                else content.eventsDefault
    | none => if stateKey.isSome then 50 else 0
  | none => if stateKey.isSome then 50 else 0

/-- `can_send_event` from `event_auth.rs`. -/
def can_send_event (event : Event) (ple : Option Event)
    (userLevel : Int) : Bool :=
  let eventTypePowerLevel := get_send_level event.eventType event.stateKey
    ple
  if userLevel < eventTypePowerLevel then false
  else if (event.stateKey.map (fun k => firstCharIs k '@')).getD false &&
      event.stateKey ≠ some event.sender then
    false
  else true

/-- The user loop of `check_power_levels`: scan the union of user keys,
reporting the first violation. -/
def userLoopViolation (sender : String) (userLevel : Int)
    (oldUsers newUsers : List (String × Int)) : List String → Bool
  | [] => false
  | u :: rest =>
    let oldLevel := alookup oldUsers u
    let newLevel := alookup newUsers u
    if oldLevel.isSome && newLevel.isSome && oldLevel = newLevel then
      userLoopViolation sender userLevel oldUsers newUsers rest
    else if u ≠ sender ∧ oldLevel = some userLevel then true
    else if optLt (some userLevel) oldLevel ||
        optLt (some userLevel) newLevel then true
    else userLoopViolation sender userLevel oldUsers newUsers rest

/-- The event-type loop of `check_power_levels`. -/
def eventLoopViolation (userLevel : Int)
    (oldEvents newEvents : List (EventType × Int)) : List EventType → Bool
  | [] => false
  | t :: rest =>
    let oldLevel := alookup oldEvents t
    let newLevel := alookup newEvents t
    if oldLevel.isSome && newLevel.isSome && oldLevel = newLevel then
      eventLoopViolation userLevel oldEvents newEvents rest
    else if optLt (some userLevel) oldLevel ||
        optLt (some userLevel) newLevel then true
    else eventLoopViolation userLevel oldEvents newEvents rest

/-- `get_deserialize_levels` applied to the serialized old and new
power-levels records: serialization always emits every scalar field as a
JSON integer, so reading it back always succeeds. -/
def getDeserializeLevels (old new : PowerLevels) (name : String) :
    Option (Int × Int) :=
  match name with
  | "users_default" => some (old.usersDefault, new.usersDefault)
  | "events_default" => some (old.eventsDefault, new.eventsDefault)
  | "state_default" => some (old.stateDefault, new.stateDefault)
  | "ban" => some (old.ban, new.ban)
  | "redact" => some (old.redact, new.redact)
  | "kick" => some (old.kick, new.kick)
  | "invite" => some (old.invite, new.invite)
  | _ => none

/-- The scalar-field names checked by `check_power_levels`. -/
def levelFieldNames : List String :=
  ["users_default", "events_default", "state_default", "ban", "redact",
   "kick", "invite"]

/-- The scalar-field loop of `check_power_levels`. -/
def scalarLoopViolation (old new : PowerLevels) (userLevel : Int) :
    List String → Bool
  | [] => false
  | name :: rest =>
    match getDeserializeLevels old new name with
    | some (oldLvl, newLvl) =>
      if userLevel < oldLvl || userLevel < newLvl then true
      else scalarLoopViolation old new userLevel rest
    | none => scalarLoopViolation old new userLevel rest

/-- `check_power_levels` from `event_auth.rs`. The two
`serde_json::from_value(...).unwrap()` calls on the event contents are
modelled by `Res.panic` on parse failure. -/
def check_power_levels (rv : RoomVersion) (powerEvent : Event)
    (previousPowerEvent : Option Event) (userLevel : Int) :
    Res (Option Bool) :=
  match powerEvent.stateKey with
  | some "" =>
    match previousPowerEvent with
    | none => .ok (some true)
    | some currentState =>
      match parsePowerLevels powerEvent.content with
      | none => .panic
      | some userContent =>
        match parsePowerLevels currentState.content with
        | none => .panic
        | some currentContent =>
          let userLevelsToCheck := (currentContent.users.map Prod.fst ++
            userContent.users.map Prod.fst).dedup
          let eventLevelsToCheck := (currentContent.events.map Prod.fst ++
            userContent.events.map Prod.fst).dedup
          if userLoopViolation powerEvent.sender userLevel
              currentContent.users userContent.users userLevelsToCheck then
            .ok (some false)
          else if eventLoopViolation userLevel currentContent.events
              userContent.events eventLevelsToCheck then
            .ok (some false)
          else if rv.limitNotificationsPowerLevels &&
              currentContent.notificationsRoom ≠
                userContent.notificationsRoom &&
              (userLevel < currentContent.notificationsRoom ||
                userLevel < userContent.notificationsRoom) then
            .ok (some false)
          else if scalarLoopViolation currentContent userContent userLevel
              levelFieldNames then
            .ok (some false)
          else .ok (some true)
  | some _ => .ok none
  | none => .ok none

/-- `check_redaction` from `event_auth.rs`. -/
def check_redaction (_roomVersion : RoomVersion) (redactionEvent : Event)
    (userLevel : Int) (redactLevel : Int) : Res Bool :=
  if redactLevel ≤ userLevel then .ok true
  else if serverNameOf redactionEvent.eventId =
      redactionEvent.redacts.bind serverNameOf then .ok true
  else .ok false

/-- `check_membership` from `event_auth.rs`. -/
def check_membership (memberEvent : Option Event)
    (state : MembershipState) : Bool :=
  match memberEvent with
  | some event =>
    match (event.content.get "membership").map parseMembership with
    | some (some membership) => membership = state
    | _ => false
  | none => false

/-- `can_federate` from `event_auth.rs`: note the comparison of the JSON
value against the string `"true"` (`fed == "true"`), which is true only
when the value is the JSON string `"true"`. -/
def can_federate (authEvents : EventType × String → Option Event) : Bool :=
  match authEvents (EventType.roomCreate, "") with
  | some ev =>
    match ev.content.get "m.federate" with
    | some fed =>
      match fed with
      | .str s => s = "true"
      | _ => false
    | none => false
  | none => false

/-- The sender power level computed by `auth_check` (lines 271-287):
`users[sender]` else `users_default` when the power-levels event parses,
0 on parse failure, and with no power-levels event 100 for the room
creator, else 0. -/
def computeSenderPower (powerLevelsEvent : Option Event)
    (roomCreateEvent : Option Event) (sender : String) : Int :=
  match powerLevelsEvent with
  | some pl =>
    match parsePowerLevels pl.content with
    | some content =>
      match alookup content.users sender with
      | some level => level
      | none => content.usersDefault
    | none => 0
  | none =>
    match roomCreateEvent.bind
        (fun create => parseCreateContent create.content) with
    | some create => if create.creator = sender then 100 else 0
    | none => 0

/-- Models `level.to_string().parse::<js_int::Int>()` on a JSON value:
only a JSON number renders to a string that parses back as an integer
(strings render quoted; booleans, null, arrays and objects render to
text that fails integer parsing). -/
def renderedIntOf : Json → Option Int
  | .num n => some n
  | _ => none

/-- The redact level computed in `auth_check`'s redaction branch
(lines 342-352). -/
def redactLevelOf (powerLevelsEvent : Option Event) : Int :=
  match powerLevelsEvent with
  | some pl =>
    match pl.content.get "redact" with
    | some level => (renderedIntOf level).getD 50
    | none => 0
  | none => 50

/-- `matches!(x, Some(Ok(_)))` on an optional parse result. -/
def matchesSomeOk {α : Type} : Option (Option α) → Bool
  | some (some _) => true
  | _ => false

/-- `UserId::try_from(state_key).map_err(|e| Error::InvalidPdu(..))?`. -/
def userIdRes (s : String) : Res String :=
  match parseUserId s with
  | none => .err "invalid pdu"
  | some u => .ok u

/-- `auth_check` from `event_auth.rs`: the main authorization checker. -/
def auth_check (roomVersion : RoomVersion) (incomingEvent : Event)
    (prevEvent : Option Event) (currentThirdPartyInvite : Option Event)
    (fetchState : EventType → String → Option Event) : Res Bool := do
  let sender := incomingEvent.sender
  if incomingEvent.eventType = EventType.roomCreate then
    if !incomingEvent.prevEvents.isEmpty then return false
    if serverNameOf incomingEvent.roomId ≠ serverNameOf sender then
      return false
    if (parseRoomVersionId ((incomingEvent.content.get
        "room_version").getD (Json.str "1"))).isNone then
      return false
    if (incomingEvent.content.get "creator").isNone then return false
    return true
  let roomCreateEvent := fetchState EventType.roomCreate ""
  if roomCreateEvent.isNone then return false
  if incomingEvent.eventType = EventType.roomAliases ∧
      roomVersion.specialCaseAliasesAuth = true then
    if incomingEvent.stateKey ≠ serverNameOf sender then return false
    return true
  let powerLevelsEvent := fetchState EventType.roomPowerLevels ""
  let senderMemberEvent := fetchState EventType.roomMember sender
  if incomingEvent.eventType = EventType.roomMember then
    match incomingEvent.stateKey with
    | none => return false
    | some stateKey =>
      let membership := (incomingEvent.content.get "membership").map
        parseMembership
      if !matchesSomeOk membership then return false
      let targetUser ← userIdRes stateKey
      let ok ← valid_membership_change targetUser
        (fetchState EventType.roomMember targetUser) sender
        senderMemberEvent incomingEvent.content prevEvent
        currentThirdPartyInvite powerLevelsEvent
        (fetchState EventType.roomJoinRules "")
      if !ok then return false
      return true
  if senderMemberEvent.isNone then return false
  let membershipState ← membershipOfEvent senderMemberEvent
  if membershipState ≠ MembershipState.join then return false
  let senderPowerLevel := computeSenderPower powerLevelsEvent
    roomCreateEvent sender
  if incomingEvent.eventType = EventType.roomThirdPartyInvite then
    let inviteLevel ← (match powerLevelsEvent with
      | some powerLevels =>
        (match parsePowerLevels powerLevels.content with
          | none => Res.err "deserialization"
          | some c => Res.ok c.invite)
      | none => Res.ok 50)
    if senderPowerLevel < inviteLevel then return false
  if !(can_send_event incomingEvent powerLevelsEvent senderPowerLevel) then
    return false
  if incomingEvent.eventType = EventType.roomPowerLevels then
    let requiredPwrLvl ← check_power_levels roomVersion incomingEvent
      powerLevelsEvent senderPowerLevel
    match requiredPwrLvl with
    | some b => if !b then return false
    | none => return false
  if roomVersion.extraRedactionChecks = true ∧
      incomingEvent.eventType = EventType.roomRedaction then
    let redactLevel := redactLevelOf powerLevelsEvent
    let allowed ← check_redaction roomVersion incomingEvent
      senderPowerLevel redactLevel
    if !allowed then return false
  return true

/-! Concrete fixture events used to exercise the engine at specific
inputs, followed by spec-side characterizations. -/

/-- A room version profile with every special-case flag enabled. -/
def rvAll : RoomVersion :=
  { specialCaseAliasesAuth := true, extraRedactionChecks := true,
    limitNotificationsPowerLevels := true }

def aliceId : String := "@alice:a.example"

def bobId : String := "@bob:b.example"

def roomIdA : String := "!room:a.example"

def exCreateContent : Json :=
  .obj [("creator", .str aliceId), ("room_version", .str "6")]

/-- A well-formed `m.room.create` event for the fixture room. -/
def exCreateEvent : Event :=
  { eventId := "$create:a.example", roomId := roomIdA, sender := aliceId,
    eventType := .roomCreate, stateKey := some "",
    content := exCreateContent, prevEvents := [], redacts := none }

/-- A power-levels content giving alice level 100 and bob level 50. -/
def exPlContent : Json :=
  .obj [("users", .obj [(aliceId, .num 100), (bobId, .num 50)]),
        ("events", .obj [("m.room.topic", .num 77)]),
        ("state_default", .num 60), ("events_default", .num 5)]

/-- The fixture power-levels state event. -/
def exPlEvent : Event :=
  { eventId := "$pl:a.example", roomId := roomIdA, sender := aliceId,
    eventType := .roomPowerLevels, stateKey := some "",
    content := exPlContent, prevEvents := ["$create:a.example"],
    redacts := none }

/-- A member event putting a user in the `join` state. -/
def exJoinEvent (u : String) : Event :=
  { eventId := "$mem:a.example", roomId := roomIdA, sender := u,
    eventType := .roomMember, stateKey := some u,
    content := .obj [("membership", .str "join")],
    prevEvents := ["$create:a.example"], redacts := none }

/-- The fixture state accessor: create, power levels, and joined alice
and bob. -/
def exFetch : EventType → String → Option Event := fun ty key =>
  if ty = EventType.roomCreate ∧ key = "" then some exCreateEvent
  else if ty = EventType.roomPowerLevels ∧ key = "" then some exPlEvent
  else if ty = EventType.roomMember ∧ key = aliceId then
    some (exJoinEvent aliceId)
  else if ty = EventType.roomMember ∧ key = bobId then
    some (exJoinEvent bobId)
  else none

/-- The record `exPlContent` parses to. -/
def exPlParsed : PowerLevels :=
  { eventsDefault := 5, stateDefault := 60,
    users := [(aliceId, 100), (bobId, 50)],
    events := [(.other "m.room.topic", 77)] }

/-- The fixture `m.room.redaction` event: a v3-style event id with no
server name and no `redacts` reference. -/
def exRedactionEvent : Event :=
  { eventId := "$v3idwithoutserver", roomId := roomIdA, sender := bobId,
    eventType := .roomRedaction, stateKey := none, content := .obj [],
    prevEvents := ["$pl:a.example"], redacts := none }

/-- A create event whose content carries `m.federate` as a JSON boolean. -/
def exFederatingCreateEvent : Event :=
  { exCreateEvent with
    content := .obj [("creator", .str aliceId),
                     ("m.federate", .bool true)] }

/-- The state map holding only `exFederatingCreateEvent`. -/
def exFedMap : EventType × String → Option Event := fun k =>
  if k = (EventType.roomCreate, "") then some exFederatingCreateEvent
  else none

/-- A malformed power-levels event: `users` is not an object. -/
def exBadPlEvent : Event :=
  { eventId := "$plbad:a.example", roomId := roomIdA, sender := aliceId,
    eventType := .roomPowerLevels, stateKey := some "",
    content := .obj [("users", .num 5)],
    prevEvents := ["$pl:a.example"], redacts := none }

/-- The three base auth-type keys required for every non-create event. -/
def baseAuthTypes (sender : String) : List (EventType × String) :=
  [(EventType.roomPowerLevels, ""), (EventType.roomMember, sender),
   (EventType.roomCreate, "")]

/-- The invariant maintained while `auth_types_for_event` pushes keys:
no duplicates, and the three base keys stay in front. -/
def authInv (sender : String) (l : List (EventType × String)) : Prop :=
  l.Nodup ∧ l.take 3 = baseAuthTypes sender ∧ 3 ≤ l.length

/-- The per-user deny condition of the power-levels edit check: the
user's level changes, and either a peer at the sender's own level is
touched by someone else, or a level above the sender's is involved
(missing levels compare strictly below any integer). -/
def userViolation (senderId : String) (lvl : Int)
    (oldU newU : List (String × Int)) (u : String) : Prop :=
  ¬((alookup oldU u).isSome = true ∧ (alookup newU u).isSome = true ∧
      alookup oldU u = alookup newU u) ∧
  ((u ≠ senderId ∧ alookup oldU u = some lvl) ∨
    optLt (some lvl) (alookup oldU u) = true ∨
    optLt (some lvl) (alookup newU u) = true)

/-- The per-event-type deny condition of the power-levels edit check. -/
def eventViolation (lvl : Int) (oldE newE : List (EventType × Int))
    (t : EventType) : Prop :=
  ¬((alookup oldE t).isSome = true ∧ (alookup newE t).isSome = true ∧
      alookup oldE t = alookup newE t) ∧
  (optLt (some lvl) (alookup oldE t) = true ∨
    optLt (some lvl) (alookup newE t) = true)

/-- The deny condition of a power-levels edit, in the specification's
terms. -/
def plDenied (rv : RoomVersion) (senderId : String) (lvl : Int)
    (oldC newC : PowerLevels) : Prop :=
  (∃ u, userViolation senderId lvl oldC.users newC.users u) ∨
  (∃ t, eventViolation lvl oldC.events newC.events t) ∨
  (rv.limitNotificationsPowerLevels = true ∧
    oldC.notificationsRoom ≠ newC.notificationsRoom ∧
    (lvl < oldC.notificationsRoom ∨ lvl < newC.notificationsRoom)) ∨
  (∃ name ∈ levelFieldNames, ∃ p : Int × Int,
    getDeserializeLevels oldC newC name = some p ∧
      (lvl < p.1 ∨ lvl < p.2))

/-- Bob (level 50) attempts to raise himself to 75. -/
def exPlEditEvent : Event :=
  { eventId := "$pledit:b.example", roomId := roomIdA, sender := bobId,
    eventType := .roomPowerLevels, stateKey := some "",
    content := .obj [("users", .obj [(aliceId, .num 100),
                       (bobId, .num 75)]),
                     ("events", .obj [("m.room.topic", .num 77)]),
                     ("state_default", .num 60),
                     ("events_default", .num 5)],
    prevEvents := ["$pl:a.example"], redacts := none }

/-- The record `exPlEditEvent`'s content parses to. -/
def exPlEditParsed : PowerLevels :=
  { eventsDefault := 5, stateDefault := 60,
    users := [(aliceId, 100), (bobId, 75)],
    events := [(.other "m.room.topic", 77)] }

/-- A topic event sent by bob, whose power (50) is below the topic send
level (77) of the fixture room. -/
def exTopicEvent : Event :=
  { eventId := "$topic:b.example", roomId := roomIdA, sender := bobId,
    eventType := .other "m.room.topic", stateKey := some "",
    content := .obj [], prevEvents := ["$pl:a.example"], redacts := none }

/-- The fixture power-levels event with an explicit `redact: 75` level. -/
def exPlRedactEvent : Event :=
  { eventId := "$plr:a.example", roomId := roomIdA, sender := aliceId,
    eventType := .roomPowerLevels, stateKey := some "",
    content := .obj [("users", .obj [(aliceId, .num 100),
                       (bobId, .num 50)]),
                     ("redact", .num 75),
                     ("state_default", .num 60),
                     ("events_default", .num 5)],
    prevEvents := ["$create:a.example"], redacts := none }

/-- The fixture accessor with the `redact: 75` power-levels event. -/
def exRedactFetch : EventType → String → Option Event := fun ty key =>
  if ty = EventType.roomCreate ∧ key = "" then some exCreateEvent
  else if ty = EventType.roomPowerLevels ∧ key = "" then
    some exPlRedactEvent
  else if ty = EventType.roomMember ∧ key = aliceId then
    some (exJoinEvent aliceId)
  else if ty = EventType.roomMember ∧ key = bobId then
    some (exJoinEvent bobId)
  else none

/-- A redaction by bob with a server-name-free event id and no `redacts`
reference. -/
def exQuirkRedactionEvent : Event :=
  { eventId := "$quirkv3id", roomId := roomIdA, sender := bobId,
    eventType := .roomRedaction, stateKey := none, content := .obj [],
    prevEvents := ["$pl:a.example"], redacts := none }

/-- Alice's redaction of bob's topic event. -/
def exAliceRedactionEvent : Event :=
  { eventId := "$r:a.example", roomId := roomIdA, sender := aliceId,
    eventType := .roomRedaction, stateKey := none, content := .obj [],
    prevEvents := ["$pl:a.example"],
    redacts := some "$topic:b.example" }

/-- Comparison against a threshold where an undefined power denies. -/
def optGe : Option Int → Int → Bool
  | some a, t => t ≤ a
  | none, _ => false

/-- The effective power of a user per the specification:
`users[u]`, else the default when the fallback condition holds, else
undefined. -/
def effectivePower (pl : PowerLevels) (u : String) (fallback : Bool) :
    Option Int :=
  match alookup pl.users u with
  | some l => some l
  | none => if fallback then some pl.usersDefault else none

/-- The membership-transition table of the specification (§4.4), stated
from its text. -/
def specMembershipVerdict (sender targetUser : String)
    (targetMembership : MembershipState) (senderIsJoined : Bool)
    (targetCurrent : MembershipState) (pl : PowerLevels)
    (joinRule : JoinRule) (tpi : Option Tpi)
    (currentTpiEvent : Option Event) : Bool :=
  let senderPower := effectivePower pl sender senderIsJoined
  let targetPower := effectivePower pl targetUser
    (targetMembership = MembershipState.join)
  match targetMembership with
  | .join =>
    sender = targetUser && !(targetCurrent = MembershipState.ban) &&
      (joinRule = JoinRule.public ||
        (joinRule = JoinRule.invite &&
          (targetCurrent = MembershipState.join ||
            targetCurrent = MembershipState.invite)))
  | .invite =>
    match tpi with
    | some t =>
      !(targetCurrent = MembershipState.ban) &&
        verify_third_party_invite (some targetUser) sender t
          currentTpiEvent
    | none =>
      senderIsJoined && !(targetCurrent = MembershipState.join) &&
        !(targetCurrent = MembershipState.ban) &&
        optGe senderPower pl.invite
  | .leave =>
    if sender = targetUser then
      targetCurrent = MembershipState.join ||
        targetCurrent = MembershipState.invite
    else
      senderIsJoined &&
        (!(targetCurrent = MembershipState.ban) ||
          optGe senderPower pl.ban) &&
        optGe senderPower pl.kick && optLt targetPower senderPower
  | .ban =>
    senderIsJoined && optGe senderPower pl.ban &&
      optLt targetPower senderPower
  | .knock => false

def charlieId : String := "@charlie:c.example"

@[simp] theorem Res.bind_ok {α β : Type} (a : α) (f : α → Res β) :
    (Res.ok a >>= f) = f a := rfl

@[simp] theorem Res.bind_err {α β : Type} (e : String) (f : α → Res β) :
    (Res.err e >>= f) = Res.err e := rfl

@[simp] theorem Res.bind_panic {α β : Type} (f : α → Res β) :
    (Res.panic >>= f) = Res.panic := rfl

@[simp] theorem Res.pure_eq {α : Type} (a : α) :
    (pure a : Res α) = Res.ok a := rfl

/-- C8: `get_send_level` returns `events[event_type]` when the supplied
power-levels event parses and has that entry, else `state_default` or
`events_default` depending on the presence of a state key; with no
power-levels event it returns 50 for state events and 0 otherwise. -/
theorem C8_get_send_level (eType : EventType) (stateKey : Option String)
    (plEv : Option Event) :
    (∀ pe c, plEv = some pe → parsePowerLevels pe.content = some c →
      get_send_level eType stateKey plEv =
        (alookup c.events eType).getD
          (if stateKey.isSome then c.stateDefault else c.eventsDefault)) ∧
    (plEv = none →
      get_send_level eType stateKey plEv =
        if stateKey.isSome then 50 else 0) := by
  constructor
  · rintro pe c rfl hc
    simp only [get_send_level, hc]
    cases h : alookup c.events eType <;> simp [h]
  · rintro rfl
    rfl

/-- Witness for C8 at the fixture power-levels event. -/
theorem C8_get_send_level_witness :
    get_send_level (EventType.other "m.room.topic") (some "")
        (some exPlEvent) =
      (alookup exPlParsed.events (EventType.other "m.room.topic")).getD
        (if (some "" : Option String).isSome then exPlParsed.stateDefault
         else exPlParsed.eventsDefault) :=
  (C8_get_send_level (EventType.other "m.room.topic") (some "")
    (some exPlEvent)).1 exPlEvent exPlParsed rfl (by decide)

/-- C10: when the sender's power is below the redact level but both the
redaction's event id and its `redacts` reference (if any) carry no server
name, `check_redaction` allows: the fallback compares the two absent
server names as equal. -/
theorem C10_check_redaction_absent_server_names (rv : RoomVersion)
    (ev : Event) (userLevel redactLevel : Int)
    (hlt : userLevel < redactLevel)
    (hid : serverNameOf ev.eventId = none)
    (hred : ev.redacts.bind serverNameOf = none) :
    check_redaction rv ev userLevel redactLevel = .ok true := by
  unfold check_redaction
  rw [hid, hred]
  simp [not_le.mpr hlt]

/-- Witness for C10: a powerless redaction of nothing, with a
server-name-free event id, is allowed. -/
theorem C10_witness :
    check_redaction rvAll exRedactionEvent 0 50 = .ok true :=
  C10_check_redaction_absent_server_names rvAll exRedactionEvent 0 50
    (by decide) (by decide) (by decide)

/-- Counterexample to C9 as stated: the create event's content contains
`m.federate` with boolean value `true`, yet `can_federate` returns
`false`, because the source compares the JSON value against the string
`"true"`. -/
theorem C9_counterexample :
    (exFedMap (EventType.roomCreate, "")).isSome = true ∧
    exFederatingCreateEvent.content.get "m.federate" =
      some (Json.bool true) ∧
    can_federate exFedMap = false := by
  refine ⟨rfl, rfl, by decide⟩

/-- C9 (amended): `can_federate` returns true iff the create event exists
and its content's `m.federate` field is the JSON *string* `"true"`; any
other value (including the boolean `true`) and any other case yields
false. -/
theorem C9_can_federate_amended
    (authEvents : EventType × String → Option Event) :
    can_federate authEvents = true ↔
      ∃ ev, authEvents (EventType.roomCreate, "") = some ev ∧
        ev.content.get "m.federate" = some (Json.str "true") := by
  unfold can_federate
  cases hc : authEvents (EventType.roomCreate, "") with
  | none => simp
  | some ev =>
    cases hf : ev.content.get "m.federate" with
    | none => simp [hf]
    | some fed => cases fed <;> simp_all

/-- C4 evaluation: with a previous power-levels event present and a new
content that fails to parse, `check_power_levels` hits the
`serde_json::from_value(...).unwrap()` and panics instead of returning
`None` as the specification requires. -/
theorem C4_check_power_levels_panics :
    check_power_levels rvAll exBadPlEvent (some exPlEvent) 100 =
      Res.panic := by decide

/-- C2: for an `m.room.create` event `auth_check` allows exactly when
`prev_events` is empty, the room id's server name equals the sender's,
the `room_version` (treated as "1" when absent) parses to a known
version, and the content has a `creator` field. -/
theorem C2_auth_check_create (rv : RoomVersion) (ev : Event)
    (prevEvent tpiEvent : Option Event)
    (fetchState : EventType → String → Option Event)
    (hty : ev.eventType = EventType.roomCreate) :
    auth_check rv ev prevEvent tpiEvent fetchState =
      .ok (ev.prevEvents.isEmpty &&
        decide (serverNameOf ev.roomId = serverNameOf ev.sender) &&
        (parseRoomVersionId ((ev.content.get "room_version").getD
          (Json.str "1"))).isSome &&
        (ev.content.get "creator").isSome) := by
  unfold auth_check
  rw [if_pos hty]
  cases h1 : ev.prevEvents.isEmpty <;>
    by_cases h2 : serverNameOf ev.roomId = serverNameOf ev.sender <;>
    cases h3 : parseRoomVersionId ((ev.content.get "room_version").getD
      (Json.str "1")) <;>
    cases h4 : ev.content.get "creator" <;>
    simp [h1, h2, h3, h4]

/-- Witness for C2: the fixture create event is allowed. -/
theorem C2_witness :
    auth_check rvAll exCreateEvent none none (fun _ _ => none) =
      .ok true := by
  rw [C2_auth_check_create rvAll exCreateEvent none none
    (fun _ _ => none) rfl]
  decide

theorem elemBy_iff {α : Type} [DecidableEq α] (a : α) (l : List α) :
    elemBy a l = true ↔ a ∈ l := by
  induction l with
  | nil => simp [elemBy]
  | cons b rest ih =>
    by_cases h : a = b <;> simp [elemBy, h, ih]

theorem addIfAbsent_nodup (l : List (EventType × String))
    (k : EventType × String) (h : l.Nodup) : (addIfAbsent l k).Nodup := by
  unfold addIfAbsent
  split
  · exact h
  · rename_i hc
    have hk : k ∉ l := fun hm => hc ((elemBy_iff k l).mpr hm)
    simp [List.nodup_append, h, hk]

theorem addIfAbsent_take (l : List (EventType × String))
    (k : EventType × String) (n : Nat) (h : n ≤ l.length) :
    (addIfAbsent l k).take n = l.take n := by
  unfold addIfAbsent
  split
  · rfl
  · exact List.take_append_of_le_length h

theorem addIfAbsent_length (l : List (EventType × String))
    (k : EventType × String) : l.length ≤ (addIfAbsent l k).length := by
  unfold addIfAbsent
  split
  · exact le_refl _
  · simp

theorem addIfAbsent_inv (sender : String)
    (l : List (EventType × String)) (k : EventType × String)
    (h : authInv sender l) : authInv sender (addIfAbsent l k) :=
  ⟨addIfAbsent_nodup l k h.1,
   by rw [addIfAbsent_take l k 3 h.2.2]; exact h.2.1,
   le_trans h.2.2 (addIfAbsent_length l k)⟩

theorem base_inv (sender : String) : authInv sender (baseAuthTypes sender) := by
  refine ⟨?_, rfl, by simp [baseAuthTypes]⟩
  simp [baseAuthTypes]

theorem auth_types_inv (kind : EventType) (sender : String)
    (stateKey : Option String) (content : Json)
    (h : kind ≠ EventType.roomCreate) :
    authInv sender (auth_types_for_event kind sender stateKey content) := by
  unfold auth_types_for_event
  rw [if_neg h]
  by_cases hk : kind = EventType.roomMember
  · rw [if_pos hk]
    cases stateKey with
    | none => exact base_inv sender
    | some sk =>
      cases hm : (content.get "membership").map parseMembership with
      | none => exact base_inv sender
      | some om =>
        cases om with
        | none => exact base_inv sender
        | some membership =>
          dsimp only
          have h1 : authInv sender
              (if membership = MembershipState.join ∨
                  membership = MembershipState.invite then
                addIfAbsent (baseAuthTypes sender)
                  (EventType.roomJoinRules, "")
              else baseAuthTypes sender) := by
            split
            · exact addIfAbsent_inv sender _ _ (base_inv sender)
            · exact base_inv sender
          have h2 := addIfAbsent_inv sender _ (EventType.roomMember, sk) h1
          by_cases hi : membership = MembershipState.invite
          · rw [if_pos hi]
            cases ht : (content.get "third_party_invite").map
                parseThirdPartyInvite with
            | none => exact h2
            | some ot =>
              cases ot with
              | none => exact h2
              | some tId => exact addIfAbsent_inv sender _ _ h2
          · rw [if_neg hi]
            exact h2
  · rw [if_neg hk]
    exact base_inv sender

/-- C7: `auth_types_for_event` is empty for `m.room.create`; for every
other kind the result starts with the power-levels, sender-member and
create keys in that order, and the whole result has no duplicate
pairs (so each base key occurs exactly once). -/
theorem C7_auth_types_for_event (kind : EventType) (sender : String)
    (stateKey : Option String) (content : Json) :
    (kind = EventType.roomCreate →
      auth_types_for_event kind sender stateKey content = []) ∧
    (kind ≠ EventType.roomCreate →
      (auth_types_for_event kind sender stateKey content).take 3 =
        baseAuthTypes sender ∧
      (auth_types_for_event kind sender stateKey content).Nodup) :=
  ⟨fun h => by simp [auth_types_for_event, h],
   fun h => ⟨(auth_types_inv kind sender stateKey content h).2.1,
     (auth_types_inv kind sender stateKey content h).1⟩⟩

/-- Witness for C7 at a concrete non-create kind. -/
theorem C7_witness :
    (auth_types_for_event (EventType.other "m.room.topic") aliceId
        (some "") (.obj [])).take 3 = baseAuthTypes aliceId ∧
    (auth_types_for_event (EventType.other "m.room.topic") aliceId
        (some "") (.obj [])).Nodup :=
  (C7_auth_types_for_event (EventType.other "m.room.topic") aliceId
    (some "") (.obj [])).2 (by decide)

theorem userLoopViolation_iff (senderId : String) (lvl : Int)
    (oldU newU : List (String × Int)) (l : List String) :
    userLoopViolation senderId lvl oldU newU l = true ↔
      ∃ u ∈ l, userViolation senderId lvl oldU newU u := by
  induction l with
  | nil => simp [userLoopViolation]
  | cons u rest ih =>
    simp only [userLoopViolation]
    split_ifs with h1 h2 h3 <;> simp_all [userViolation]

theorem eventLoopViolation_iff (lvl : Int)
    (oldE newE : List (EventType × Int)) (l : List EventType) :
    eventLoopViolation lvl oldE newE l = true ↔
      ∃ t ∈ l, eventViolation lvl oldE newE t := by
  induction l with
  | nil => simp [eventLoopViolation]
  | cons t rest ih =>
    simp only [eventLoopViolation]
    split_ifs with h1 h2 <;> simp_all [eventViolation]

theorem alookup_isSome_mem {α β : Type} [DecidableEq α]
    (l : List (α × β)) (a : α) (h : (alookup l a).isSome = true) :
    a ∈ l.map Prod.fst := by
  induction l with
  | nil => simp [alookup] at h
  | cons p rest ih =>
    obtain ⟨k, v⟩ := p
    by_cases hk : a = k
    · simp [hk]
    · simp only [alookup, if_neg hk] at h
      simpa using Or.inr (ih h)

theorem userViolation_mem (senderId : String) (lvl : Int)
    (oldU newU : List (String × Int)) (u : String)
    (h : userViolation senderId lvl oldU newU u) :
    u ∈ (oldU.map Prod.fst ++ newU.map Prod.fst).dedup := by
  rw [List.mem_dedup, List.mem_append]
  rcases h.2 with ⟨_, he⟩ | ho | hn
  · exact Or.inl (alookup_isSome_mem oldU u (by simp [he]))
  · refine Or.inl (alookup_isSome_mem oldU u ?_)
    cases hx : alookup oldU u with
    | none => rw [hx] at ho; simp [optLt] at ho
    | some _ => simp
  · refine Or.inr (alookup_isSome_mem newU u ?_)
    cases hx : alookup newU u with
    | none => rw [hx] at hn; simp [optLt] at hn
    | some _ => simp

theorem eventViolation_mem (lvl : Int)
    (oldE newE : List (EventType × Int)) (t : EventType)
    (h : eventViolation lvl oldE newE t) :
    t ∈ (oldE.map Prod.fst ++ newE.map Prod.fst).dedup := by
  rw [List.mem_dedup, List.mem_append]
  rcases h.2 with ho | hn
  · refine Or.inl (alookup_isSome_mem oldE t ?_)
    cases hx : alookup oldE t with
    | none => rw [hx] at ho; simp [optLt] at ho
    | some _ => simp
  · refine Or.inr (alookup_isSome_mem newE t ?_)
    cases hx : alookup newE t with
    | none => rw [hx] at hn; simp [optLt] at hn
    | some _ => simp

theorem scalarLoopViolation_iff (oldC newC : PowerLevels) (lvl : Int)
    (l : List String) :
    scalarLoopViolation oldC newC lvl l = true ↔
      ∃ name ∈ l, ∃ p : Int × Int,
        getDeserializeLevels oldC newC name = some p ∧
          (lvl < p.1 ∨ lvl < p.2) := by
  induction l with
  | nil => simp [scalarLoopViolation]
  | cons name rest ih =>
    simp only [scalarLoopViolation]
    cases hg : getDeserializeLevels oldC newC name with
    | none => simp [hg, ih]
    | some p =>
      obtain ⟨p1, p2⟩ := p
      dsimp only
      by_cases hp : lvl < p1 ∨ lvl < p2
      · rw [if_pos (by simpa using hp)]
        simp only [true_iff]
        exact ⟨name, by simp, (p1, p2), hg, hp⟩
      · rw [if_neg (by simpa using hp), ih]
        constructor
        · rintro ⟨n, hn, hrest⟩; exact ⟨n, by simp [hn], hrest⟩
        · rintro ⟨n, hn, q, hq, hlt⟩
          rcases List.mem_cons.mp hn with rfl | hmem
          · rw [hg] at hq; cases hq; exact absurd hlt hp
          · exact ⟨n, hmem, q, hq, hlt⟩

theorem plChain_iff (a b c d : Bool) :
    ((if a then Res.ok (α := Option Bool) (some false)
      else if b then .ok (some false)
      else if c then .ok (some false)
      else if d then .ok (some false)
      else .ok (some true)) = .ok (some false) ↔
        (a = true ∨ b = true ∨ c = true ∨ d = true)) ∧
    ((if a then Res.ok (α := Option Bool) (some false)
      else if b then .ok (some false)
      else if c then .ok (some false)
      else if d then .ok (some false)
      else .ok (some true)) = .ok (some true) ↔
        ¬(a = true ∨ b = true ∨ c = true ∨ d = true)) := by
  cases a <;> cases b <;> cases c <;> cases d <;> simp

/-- C3: when the power event has state key `""` and both the new and the
previous power-levels contents parse, `check_power_levels` returns
`Some(false)` exactly when the edit violates one of the deny conditions
(peer removal at own level, any user or event level above the sender's on
either side of a change, a notifications change above the sender's level
under the profile flag, or a scalar field above the sender's level on
either side), and `Some(true)` otherwise. -/
theorem C3_check_power_levels (rv : RoomVersion) (pe prev : Event)
    (lvl : Int) (oldC newC : PowerLevels)
    (hsk : pe.stateKey = some "")
    (hnew : parsePowerLevels pe.content = some newC)
    (hold : parsePowerLevels prev.content = some oldC) :
    (check_power_levels rv pe (some prev) lvl = .ok (some false) ↔
      plDenied rv pe.sender lvl oldC newC) ∧
    (check_power_levels rv pe (some prev) lvl = .ok (some true) ↔
      ¬ plDenied rv pe.sender lvl oldC newC) := by
  have hu : userLoopViolation pe.sender lvl oldC.users newC.users
      ((oldC.users.map Prod.fst ++ newC.users.map Prod.fst).dedup) =
        true ↔
      ∃ u, userViolation pe.sender lvl oldC.users newC.users u := by
    rw [userLoopViolation_iff]
    constructor
    · rintro ⟨u, _, h⟩; exact ⟨u, h⟩
    · rintro ⟨u, h⟩
      exact ⟨u, userViolation_mem pe.sender lvl oldC.users newC.users u h,
        h⟩
  have he : eventLoopViolation lvl oldC.events newC.events
      ((oldC.events.map Prod.fst ++ newC.events.map Prod.fst).dedup) =
        true ↔
      ∃ t, eventViolation lvl oldC.events newC.events t := by
    rw [eventLoopViolation_iff]
    constructor
    · rintro ⟨t, _, h⟩; exact ⟨t, h⟩
    · rintro ⟨t, h⟩
      exact ⟨t, eventViolation_mem lvl oldC.events newC.events t h, h⟩
  have hs := scalarLoopViolation_iff oldC newC lvl levelFieldNames
  unfold check_power_levels
  rw [hsk, hnew]
  dsimp only
  rw [hold]
  dsimp only
  refine ⟨(plChain_iff _ _ _ _).1.trans ?_, (plChain_iff _ _ _ _).2.trans
    (not_congr ?_)⟩ <;>
  · rw [hu, he, hs]
    unfold plDenied
    constructor
    · rintro (h | h | h | h)
      · exact Or.inl h
      · exact Or.inr (Or.inl h)
      · refine Or.inr (Or.inr (Or.inl ?_))
        simp only [Bool.and_eq_true, decide_eq_true_eq, Bool.or_eq_true]
          at h
        tauto
      · exact Or.inr (Or.inr (Or.inr h))
    · rintro (h | h | h | h)
      · exact Or.inl h
      · exact Or.inr (Or.inl h)
      · refine Or.inr (Or.inr (Or.inl ?_))
        simp only [Bool.and_eq_true, decide_eq_true_eq, Bool.or_eq_true]
        tauto
      · exact Or.inr (Or.inr (Or.inr h))

/-- Witness for C3: the self-promotion edit is denied. -/
theorem C3_witness :
    check_power_levels rvAll exPlEditEvent (some exPlEvent) 50 =
      .ok (some false) :=
  (C3_check_power_levels rvAll exPlEditEvent exPlEvent 50 exPlParsed
      exPlEditParsed rfl (by decide) (by decide)).1.mpr
    (Or.inl ⟨bobId, by unfold userViolation; decide⟩)

/-- C5: `can_send_event` returns true exactly when the sender's power is
not below the required send level and the state key, when it starts with
`@`, equals the sender; and on the general `auth_check` path (past the
create, aliases and member branches, with the sender joined) a failing
gate makes `auth_check` return `Ok(false)`. -/
theorem C5_send_gate :
    (∀ (ev : Event) (ple : Option Event) (lvl : Int),
      can_send_event ev ple lvl = true ↔
        (¬(lvl < get_send_level ev.eventType ev.stateKey ple) ∧
          ¬((∃ k, ev.stateKey = some k ∧ firstCharIs k '@' = true) ∧
            ev.stateKey ≠ some ev.sender))) ∧
    (∀ (rv : RoomVersion) (ev : Event) (prevEv tpiEv : Option Event)
      (fetch : EventType → String → Option Event) (createEv mem : Event),
      ev.eventType ≠ EventType.roomCreate →
      ¬(ev.eventType = EventType.roomAliases ∧
          rv.specialCaseAliasesAuth = true) →
      ev.eventType ≠ EventType.roomMember →
      fetch EventType.roomCreate "" = some createEv →
      fetch EventType.roomMember ev.sender = some mem →
      membershipOfEvent (some mem) = .ok MembershipState.join →
      (∀ pe, fetch EventType.roomPowerLevels "" = some pe →
        (parsePowerLevels pe.content).isSome = true) →
      can_send_event ev (fetch EventType.roomPowerLevels "")
        (computeSenderPower (fetch EventType.roomPowerLevels "")
          (some createEv) ev.sender) = false →
      auth_check rv ev prevEv tpiEv fetch = .ok false) := by
  constructor
  · intro ev ple lvl
    unfold can_send_event
    cases hk : ev.stateKey with
    | none =>
      by_cases hl : lvl < get_send_level ev.eventType ev.stateKey ple <;>
        simp_all
    | some k =>
      by_cases hl : lvl < get_send_level ev.eventType ev.stateKey ple <;>
        by_cases hc : firstCharIs k '@' = true <;>
        by_cases he : ev.stateKey = some ev.sender <;>
        simp_all
  · intro rv ev prevEv tpiEv fetch createEv mem h1 h2 h3 h4 h5 h6 htpi
      hgate
    unfold auth_check
    simp only [Res.pure_eq, Res.bind_ok, h4, h5, h6]
    simp [h1, h2, h3, hgate]
    intro ht
    cases hpl : fetch EventType.roomPowerLevels "" with
    | none => rfl
    | some pe =>
      obtain ⟨c, hc⟩ := Option.isSome_iff_exists.mp (htpi pe hpl)
      dsimp only
      rw [hc]
      rfl

/-- Witness for C5: bob cannot send the topic event. -/
theorem C5_witness :
    auth_check rvAll exTopicEvent none none exFetch = .ok false :=
  C5_send_gate.2 rvAll exTopicEvent none none exFetch exCreateEvent
    (exJoinEvent bobId) (by decide) (by decide) (by decide) rfl rfl
    (by decide)
    (fun pe h => by
      have hpe : exPlEvent = pe := Option.some.inj h
      rw [← hpe]
      decide)
    (by decide)

theorem check_redaction_eq (rv : RoomVersion) (ev : Event)
    (lvl rl : Int) :
    check_redaction rv ev lvl rl =
      .ok (decide (rl ≤ lvl) ||
        decide (serverNameOf ev.eventId = ev.redacts.bind serverNameOf)) := by
  unfold check_redaction
  split_ifs with ha hb <;> simp [*]

/-- Counterexample to C6 as stated: bob's power (50) is below the redact
level (75) and `redacts` is absent, so the claim's final "else denies"
applies; yet `auth_check` allows, because the absent server name of the
v3-style event id compares equal to the absent server name of the
missing `redacts` reference. -/
theorem C6_counterexample :
    computeSenderPower (exRedactFetch EventType.roomPowerLevels "")
        (some exCreateEvent) bobId = 50 ∧
    redactLevelOf (exRedactFetch EventType.roomPowerLevels "") = 75 ∧
    exQuirkRedactionEvent.redacts = none ∧
    auth_check rvAll exQuirkRedactionEvent none none exRedactFetch =
      .ok true := by
  refine ⟨by decide, by decide, rfl, by decide⟩

/-- C6 (amended): with `extra_redaction_checks` on, the redaction branch
computes the redact level as 50 with no power-levels event, 0 when the
event exists without a `redact` field, and otherwise the rendered field
value with 50 as fallback; the redaction is then allowed iff the sender's
power reaches that level or the (possibly absent) server names of the
event id and the `redacts` reference coincide. -/
theorem C6_redaction_branch :
    (redactLevelOf none = 50) ∧
    (∀ pe : Event, pe.content.get "redact" = none →
      redactLevelOf (some pe) = 0) ∧
    (∀ (pe : Event) (j : Json), pe.content.get "redact" = some j →
      redactLevelOf (some pe) = (renderedIntOf j).getD 50) ∧
    (∀ (rv : RoomVersion) (ev : Event) (prevEv tpiEv : Option Event)
      (fetch : EventType → String → Option Event) (createEv mem : Event),
      ev.eventType = EventType.roomRedaction →
      rv.extraRedactionChecks = true →
      fetch EventType.roomCreate "" = some createEv →
      fetch EventType.roomMember ev.sender = some mem →
      membershipOfEvent (some mem) = .ok MembershipState.join →
      can_send_event ev (fetch EventType.roomPowerLevels "")
        (computeSenderPower (fetch EventType.roomPowerLevels "")
          (some createEv) ev.sender) = true →
      auth_check rv ev prevEv tpiEv fetch =
        .ok (decide (redactLevelOf (fetch EventType.roomPowerLevels "") ≤
            computeSenderPower (fetch EventType.roomPowerLevels "")
              (some createEv) ev.sender) ||
          decide (serverNameOf ev.eventId =
            ev.redacts.bind serverNameOf))) := by
  refine ⟨rfl, ?_, ?_, ?_⟩
  · intro pe h
    simp [redactLevelOf, h]
  · intro pe j h
    simp [redactLevelOf, h]
  · intro rv ev prevEv tpiEv fetch createEv mem hty hflag h4 h5 h6 hgate
    have h1 : ev.eventType ≠ EventType.roomCreate := by
      rw [hty]; decide
    have h2 : ¬(ev.eventType = EventType.roomAliases ∧
        rv.specialCaseAliasesAuth = true) := by
      rw [hty]; rintro ⟨h, _⟩; cases h
    have h3 : ev.eventType ≠ EventType.roomMember := by
      rw [hty]; decide
    have ht : ev.eventType ≠ EventType.roomThirdPartyInvite := by
      rw [hty]; decide
    have hp : ev.eventType ≠ EventType.roomPowerLevels := by
      rw [hty]; decide
    unfold auth_check
    simp only [Res.pure_eq, Res.bind_ok, h4, h5, h6]
    simp [h1, h2, h3, ht, hp, hgate, hflag, hty, check_redaction_eq]
    by_cases hr : redactLevelOf (fetch EventType.roomPowerLevels "") ≤
        computeSenderPower (fetch EventType.roomPowerLevels "")
          (some createEv) ev.sender <;>
      by_cases hsv : serverNameOf ev.eventId =
          ev.redacts.bind serverNameOf <;>
      simp_all [not_le]

/-- Witness for the amended C6: alice (power 100, redact level 75) may
redact; `auth_check` returns exactly the computed verdict. -/
theorem C6_witness :
    auth_check rvAll exAliceRedactionEvent none none exRedactFetch =
      .ok (decide (redactLevelOf
          (exRedactFetch EventType.roomPowerLevels "") ≤
        computeSenderPower (exRedactFetch EventType.roomPowerLevels "")
          (some exCreateEvent) aliceId) ||
        decide (serverNameOf exAliceRedactionEvent.eventId =
          exAliceRedactionEvent.redacts.bind serverNameOf)) :=
  C6_redaction_branch.2.2.2 rvAll exAliceRedactionEvent
    none none exRedactFetch exCreateEvent (exJoinEvent aliceId) rfl rfl
    rfl rfl (by decide) (by decide)

theorem orElse_effectivePower (pl : PowerLevels) (u : String) (p : Prop)
    [Decidable p] :
    ((alookup pl.users u).orElse
      (fun _ => if p then some pl.usersDefault else none)) =
      effectivePower pl u (decide p) := by
  cases h : alookup pl.users u <;> by_cases hp : p <;>
    simp [effectivePower, h, hp, Option.orElse]

theorem filter_ge_isSome (o : Option Int) (t : Int) :
    (Option.filter (fun p => t ≤ p) o).isSome = optGe o t := by
  cases o with
  | none => rfl
  | some a => by_cases h : t ≤ a <;> simp [Option.filter, optGe, h]

theorem filter_lt_isSome (o : Option Int) (t : Int) :
    (Option.filter (fun p => p < t) o).isSome =
      (o.isSome && !optGe o t) := by
  cases o with
  | none => rfl
  | some a =>
    by_cases h : a < t
    · simp [Option.filter, optGe, h, not_le_of_lt h]
    · simp [Option.filter, optGe, h, le_of_not_lt h]

theorem effectivePower_isSome (pl : PowerLevels) (u : String) :
    (effectivePower pl u true).isSome = true := by
  unfold effectivePower
  cases h : alookup pl.users u <;> simp

/-- C1: with all supplied contents parsing and the bootstrap early allow
not applying, `valid_membership_change` returns exactly the verdict of
the specification's membership table (§4.4), over the effective sender
and target powers with undefined powers denying. -/
theorem C1_valid_membership_change (targetUser sender : String)
    (tmEv smEv plEv jrEv prevEv tpiEv : Option Event) (content : Json)
    (tm sm tcm : MembershipState) (plc : PowerLevels) (jr : JoinRule)
    (htm : getMembershipField content = .ok tm)
    (hsm : membershipOfEvent smEv = .ok sm)
    (htc : membershipOfEvent tmEv = .ok tcm)
    (hpl : plContentOf plEv = .ok plc)
    (hjr : joinRuleOf jrEv = .ok jr)
    (hboot : isCreateBootstrap prevEv = false) :
    valid_membership_change targetUser tmEv sender smEv content prevEv
        tpiEv plEv jrEv =
      .ok (specMembershipVerdict sender targetUser tm
        (sm = MembershipState.join) tcm plc jr
        ((content.get "third_party_invite").bind parseThirdPartyInvite)
        tpiEv) := by
  unfold valid_membership_change
  simp only [Res.pure_eq, Res.bind_ok, htm, hsm, htc, hpl, hjr, hboot]
  simp only [orElse_effectivePower]
  unfold specMembershipVerdict
  cases tm with
  | join =>
    by_cases h1 : sender = targetUser <;>
      by_cases h2 : tcm = MembershipState.ban <;>
      simp [h1, h2, Bool.or_comm]
  | invite =>
    cases hg : content.get "third_party_invite" with
    | none =>
      by_cases hj : sm = MembershipState.join <;>
        by_cases h2 : tcm = MembershipState.join <;>
        by_cases h3 : tcm = MembershipState.ban <;>
        simp [hg, hj, h2, h3, filter_ge_isSome]
    | some j =>
      cases hp : parseThirdPartyInvite j with
      | none =>
        by_cases hj : sm = MembershipState.join <;>
          by_cases h2 : tcm = MembershipState.join <;>
          by_cases h3 : tcm = MembershipState.ban <;>
          simp [hg, hp, hj, h2, h3, filter_ge_isSome]
      | some t =>
        by_cases h3 : tcm = MembershipState.ban <;>
          simp [hg, hp, h3]
  | leave =>
    by_cases h1 : sender = targetUser
    · by_cases h2 : tcm = MembershipState.join <;>
        by_cases h3 : tcm = MembershipState.invite <;>
        simp [h1, h2, h3]
    · by_cases hj : sm = MembershipState.join
      · have hspS : (effectivePower plc sender
            (decide (sm = MembershipState.join))).isSome = true := by
          rw [hj]
          simpa using effectivePower_isSome plc sender
        simp only [filter_lt_isSome, filter_ge_isSome, hspS]
        by_cases h3 : tcm = MembershipState.ban <;>
          cases hG1 : optGe (effectivePower plc sender
            (decide (sm = MembershipState.join))) plc.ban <;>
          cases hG2 : optGe (effectivePower plc sender
            (decide (sm = MembershipState.join))) plc.kick <;>
          simp [h1, hj, h3, hG1, hG2]
      · simp [h1, hj]
  | ban =>
    by_cases hj : sm = MembershipState.join <;>
      simp [hj, filter_ge_isSome]
  | knock => simp

/-- Witness for C1: joined alice (power 100) bans charlie, who holds no
power; the table allows. -/
theorem C1_witness :
    valid_membership_change charlieId none aliceId
        (some (exJoinEvent aliceId)) (.obj [("membership", .str "ban")])
        none none (some exPlEvent) none = .ok true := by
  rw [C1_valid_membership_change charlieId aliceId none
    (some (exJoinEvent aliceId)) (some exPlEvent) none none none
    (.obj [("membership", .str "ban")]) .ban .join .leave exPlParsed
    .invite (by decide) (by decide) (by decide) (by decide) (by decide)
    (by decide)]
  decide

end EventAuth

